import Mathlib

/-!
Verification of the llxprt-nui chat transcript store and streaming session
controller, shallowly embedded from the TypeScript sources
(`src/hooks/useChatStore.ts`, `src/hooks/useStreamingResponder.ts`,
the prompt-history hook, and the session-config validator).

Modelling conventions:
* the monotonic id generator `makeId` is modelled as a counter carried in the
  store state, so entry ids are `Nat`;
* `Record<string, unknown>` tool parameters are modelled as association lists
  of strings (the program never inspects them);
* a TypeScript `Partial` update object is modelled as a structure of `Option`
  fields: `none` means "key absent" (old value kept by the object spread),
  `some v` means "key present with value v" (old value overwritten); a field
  whose value may itself be `undefined` is an `Option (Option _)`.
-/

namespace LlxprtNui

/-- Message roles, from `useChatStore.ts` / the messages module. -/
inductive Role where
  | user
  | model
  | thinking
  | system
deriving DecidableEq, Repr

/-- Stream state, from `useChatStore.ts`: `"idle" | "streaming"`. -/
inductive StreamState where
  | idle
  | streaming
deriving DecidableEq, Repr

/-- Tool lifecycle status, from `src/types/events` (spec §3). -/
inductive ToolStatus where
  | pending
  | executing
  | confirming
  | complete
  | error
  | cancelled
deriving DecidableEq, Repr

/-- Tool parameters: `Record<string, unknown>`, modelled as an assoc list. -/
def Params := List (String × String)
deriving DecidableEq, Repr

/-- Confirmation details attached to a ToolCall (`useChatStore.ts`). -/
structure Confirmation where
  confirmationType : String
  question : String
  preview : String
  canAllowAlways : Bool
deriving DecidableEq, Repr

/-- Structure `ChatMessage` from `useChatStore.ts` (kind "message"). -/
structure ChatMessage where
  id : Nat
  role : Role
  text : String
deriving DecidableEq, Repr

/-- Structure `ToolBlockLegacy` from `useChatStore.ts` (kind "tool"). -/
structure ToolBlockLegacy where
  id : Nat
  lines : List String
  isBatch : Bool
  scrollable : Option Bool
  maxHeight : Option Nat
  streaming : Option Bool
deriving DecidableEq, Repr

/-- Structure `ToolCall` from `useChatStore.ts` (kind "toolcall"). -/
structure ToolCall where
  id : Nat
  callId : String
  name : String
  params : Params
  status : ToolStatus
  output : Option String
  errorMessage : Option String
  confirmation : Option Confirmation
deriving DecidableEq, Repr

/-- Union `ChatEntry = ChatMessage | ToolBlockLegacy | ToolCall`; the constructor
plays the role of the `kind` discriminant. -/
inductive ChatEntry where
  | message (m : ChatMessage)
  | tool (b : ToolBlockLegacy)
  | toolcall (t : ToolCall)
deriving DecidableEq, Repr

namespace ChatEntry

/-- The `id` field shared by every entry kind. -/
def entryId : ChatEntry → Nat
  | .message m => m.id
  | .tool b => b.id
  | .toolcall t => t.id

/-- Does this entry have kind "message" with the given id?
(the match tested by `appendToMessage`). -/
def isMessageWithId (e : ChatEntry) (id : Nat) : Prop :=
  match e with
  | .message m => m.id = id
  | _ => False

instance (e : ChatEntry) (id : Nat) : Decidable (e.isMessageWithId id) := by
  unfold isMessageWithId
  cases e <;> infer_instance

/-- Does this entry have kind "toolcall" with the given backend callId?
(the match tested by `updateToolCall`). -/
def isToolCallWithCallId (e : ChatEntry) (callId : String) : Prop :=
  match e with
  | .toolcall t => t.callId = callId
  | _ => False

instance (e : ChatEntry) (callId : String) :
    Decidable (e.isToolCallWithCallId callId) := by
  unfold isToolCallWithCallId
  cases e <;> infer_instance

/-- Does this entry have kind "tool" or "toolcall" with the given id?
(the match tested by `updateToolBlock`:
`(item.kind !== "tool" && item.kind !== "toolcall") || item.id !== id`
passes the entry through). -/
def isToolBlockWithId (e : ChatEntry) (id : Nat) : Prop :=
  match e with
  | .message _ => False
  | .tool b => b.id = id
  | .toolcall t => t.id = id

instance (e : ChatEntry) (id : Nat) : Decidable (e.isToolBlockWithId id) := by
  unfold isToolBlockWithId
  cases e <;> infer_instance

end ChatEntry

/-- The `Partial`-typed update object accepted by `updateToolCall`
(`Partial<Omit<ToolCall, "id" | "kind" | "callId">>`).
Outer `Option` = key present; inner `Option` = value or `undefined`. -/
structure ToolCallUpdate where
  name : Option String := none
  params : Option Params := none
  status : Option ToolStatus := none
  output : Option (Option String) := none
  errorMessage : Option (Option String) := none
  confirmation : Option (Option Confirmation) := none
deriving DecidableEq, Repr

/-- The object spread `{ ...item, ...update }` on a ToolCall. -/
def applyToolCallUpdate (t : ToolCall) (u : ToolCallUpdate) : ToolCall :=
  { id := t.id
    callId := t.callId
    name := u.name.getD t.name
    params := u.params.getD t.params
    status := u.status.getD t.status
    output := match u.output with
      | some v => v
      | none => t.output
    errorMessage := match u.errorMessage with
      | some v => v
      | none => t.errorMessage
    confirmation := match u.confirmation with
      | some v => v
      | none => t.confirmation }

/-- The per-entry callback of `appendToMessage`: append `text` to the
message whose id matches; all other entries pass through. -/
def appendToMessageEntry (id : Nat) (text : String) (entry : ChatEntry) :
    ChatEntry :=
  match entry with
  | .message m =>
      if m.id = id then .message { m with text := m.text ++ text } else entry
  | _ => entry

/-- Function `appendToMessage` from `useChatStore.ts`: map the callback over entries. -/
def appendToMessageEntries (entries : List ChatEntry) (id : Nat) (text : String) :
    List ChatEntry :=
  entries.map (appendToMessageEntry id text)

/-- The per-entry callback of `updateToolCall`: spread the update into the
toolcall whose callId matches; others pass through. -/
def updateToolCallEntry (callId : String) (u : ToolCallUpdate)
    (item : ChatEntry) : ChatEntry :=
  match item with
  | .toolcall t =>
      if t.callId = callId then .toolcall (applyToolCallUpdate t u) else item
  | _ => item

/-- Function `updateToolCall` from `useChatStore.ts`: map the callback over entries. -/
def updateToolCallEntries (entries : List ChatEntry) (callId : String)
    (u : ToolCallUpdate) : List ChatEntry :=
  entries.map (updateToolCallEntry callId u)

/-- The per-entry callback of `updateToolBlock`: apply the caller-supplied
`mutate` to the tool or toolcall entry whose id matches; every other entry
passes through.  The TS `mutate` has type `ToolBlock → ToolBlock`
(`ToolBlockLegacy | ToolCall`); it is modelled as a function on entries
that the guard only ever applies to tool or toolcall entries. -/
def updateToolBlockEntry (id : Nat) (mutate : ChatEntry → ChatEntry)
    (item : ChatEntry) : ChatEntry :=
  match item with
  | .message _ => item
  | .tool b => if b.id = id then mutate item else item
  | .toolcall t => if t.id = id then mutate item else item

/-- Function `updateToolBlock` from `useChatStore.ts` (lines 171–183): map
the callback over entries. -/
def updateToolBlockEntries (entries : List ChatEntry) (id : Nat)
    (mutate : ChatEntry → ChatEntry) : List ChatEntry :=
  entries.map (updateToolBlockEntry id mutate)

/-- The chat store state: the entry list plus the id-generator counter and
the responder word count (`useChatStore.ts` state). -/
structure Store where
  entries : List ChatEntry
  nextId : Nat
  wordCount : Nat
deriving DecidableEq, Repr

def emptyStore : Store := { entries := [], nextId := 0, wordCount := 0 }

namespace Store

/-- Operation `appendMessage(role, text)`: push a fresh message at the end, return its id. -/
def appendMessage (st : Store) (role : Role) (text : String) : Store × Nat :=
  let id := st.nextId
  ({ st with
      entries := st.entries ++ [.message { id := id, role := role, text := text }]
      nextId := id + 1 }, id)

/-- Operation `appendToolBlock(tool)`: push a fresh legacy tool block, return its id. -/
def appendToolBlock (st : Store) (lines : List String) (isBatch : Bool)
    (scrollable : Option Bool) (maxHeight : Option Nat)
    (streaming : Option Bool) : Store × Nat :=
  let id := st.nextId
  ({ st with
      entries := st.entries ++
        [.tool { id := id, lines := lines, isBatch := isBatch,
                 scrollable := scrollable, maxHeight := maxHeight,
                 streaming := streaming }]
      nextId := id + 1 }, id)

/-- Operation `appendToolCall(callId, name, params)`: push a fresh ToolCall with
status "pending", return its entry id. -/
def appendToolCall (st : Store) (callId : String) (name : String)
    (params : Params) : Store × Nat :=
  let id := st.nextId
  ({ st with
      entries := st.entries ++
        [.toolcall { id := id, callId := callId, name := name, params := params,
                     status := .pending, output := none, errorMessage := none,
                     confirmation := none }]
      nextId := id + 1 }, id)

/-- Store-level `appendToMessage`. -/
def appendToMessage (st : Store) (id : Nat) (text : String) : Store :=
  { st with entries := appendToMessageEntries st.entries id text }

/-- Store-level `updateToolCall`. -/
def updateToolCall (st : Store) (callId : String) (u : ToolCallUpdate) : Store :=
  { st with entries := updateToolCallEntries st.entries callId u }

/-- Store-level `updateToolBlock`. -/
def updateToolBlock (st : Store) (id : Nat) (mutate : ChatEntry → ChatEntry) :
    Store :=
  { st with entries := updateToolBlockEntries st.entries id mutate }

end Store

/-! ## Streaming session controller (`useStreamingResponder.ts`) -/

/-- JS `String.prototype.trim()`: strip leading and trailing whitespace.
Implemented over the character list so concrete runs reduce in the kernel
(Lean's builtin `String.trim` does not). -/
def trimString (s : String) : String :=
  String.mk
    (((s.data.dropWhile Char.isWhitespace).reverse.dropWhile
        Char.isWhitespace).reverse)

/-- Count maximal non-whitespace runs; `inWord` says whether the previous
character was part of a run. -/
def countRuns : List Char → Bool → Nat
  | [], _ => 0
  | c :: cs, inWord =>
      if c.isWhitespace then countRuns cs false
      else (if inWord then 0 else 1) + countRuns cs true

/-- Function `countWords(text)`: the number of `\S+` matches, i.e. of maximal
non-whitespace runs. -/
def countWords (text : String) : Nat :=
  countRuns text.data false

/-- Event `ToolPendingEvent`: the fields of a `tool_pending` adapter event kept in
`pendingToolRequests` (backend callId, tool name, params). -/
structure ToolPendingEvent where
  id : String
  name : String
  params : Params
deriving DecidableEq, Repr

/-- The discriminated adapter-event union consumed by `handleAdapterEvent`
(shapes as read off the consumer and spec §4.4 step 3). -/
inductive AdapterEvent where
  | text_delta (text : String)
  | thinking_delta (text : String)
  | tool_pending (id : String) (name : String) (params : Params)
  | tool_result (id : String) (success : Bool)
      (output : Option String) (errorMessage : Option String)
  | tool_confirmation (id : String) (confirmationType : String)
      (question : String) (preview : String) (canAllowAlways : Bool)
  | tool_cancelled (id : String)
  | error (message : String)
  | complete
deriving DecidableEq, Repr

/-- Structure `StreamContext` from `useStreamingResponder.ts`. `toolCalls` (a `Map`
from backend callId to entry id) is modelled as an assoc list. -/
structure StreamContext where
  modelMessageId : Option Nat
  thinkingMessageId : Option Nat
  toolCalls : List (String × Nat)
  pendingToolRequests : List ToolPendingEvent
deriving DecidableEq, Repr

def emptyStreamContext : StreamContext :=
  { modelMessageId := none, thinkingMessageId := none,
    toolCalls := [], pendingToolRequests := [] }

/-- Function `handleAdapterEvent` from `useStreamingResponder.ts`: maps one adapter
event to transcript mutations, returning the updated stream context.  The
store plays the role of the mutation callbacks (`appendMessage`,
`appendToMessage`, `appendToolCall`, `updateToolCall`,
`setResponderWordCount`); the `onConfirmationNeeded` UI callback performs no
transcript mutation and is omitted. -/
def handleAdapterEvent (event : AdapterEvent) (context : StreamContext)
    (st : Store) : StreamContext × Store :=
  match event with
  | .text_delta text =>
      match context.modelMessageId with
      | none =>
          -- Skip empty or whitespace-only text when starting a new message
          if trimString text = "" then (context, st)
          else
            let r := st.appendMessage .model text
            ({ context with modelMessageId := some r.2 },
             { r.1 with wordCount := r.1.wordCount + countWords text })
      | some mid =>
          (context,
           { st.appendToMessage mid text with
               wordCount := st.wordCount + countWords text })
  | .thinking_delta text =>
      match context.thinkingMessageId with
      | none =>
          if trimString text = "" then (context, st)
          else
            let r := st.appendMessage .thinking text
            ({ context with thinkingMessageId := some r.2 },
             { r.1 with wordCount := r.1.wordCount + countWords text })
      | some mid =>
          (context,
           { st.appendToMessage mid text with
               wordCount := st.wordCount + countWords text })
  | .tool_pending id name params =>
      let r := st.appendToolCall id name params
      -- Reset message IDs since model output may continue after tool
      ({ modelMessageId := none, thinkingMessageId := none,
         toolCalls := context.toolCalls ++ [(id, r.2)],
         pendingToolRequests :=
           context.pendingToolRequests ++ [{ id := id, name := name, params := params }] },
       r.1)
  | .tool_result id success output errorMessage =>
      (context,
       st.updateToolCall id
        { status := some (if success then .complete else .error),
          output := some output, errorMessage := some errorMessage })
  | .tool_confirmation id confirmationType question preview canAllowAlways =>
      (context,
       st.updateToolCall id
        { status := some .confirming,
          confirmation := some (some
            { confirmationType := confirmationType, question := question,
              preview := preview, canAllowAlways := canAllowAlways }) })
  | .tool_cancelled id =>
      (context, st.updateToolCall id { status := some .cancelled })
  | .error message =>
      (context, (st.appendMessage .system ("Error: " ++ message)).1)
  | .complete => (context, st)

/-! ### Tool execution (`executeToolsAndGetResponses`)

The outcome of the external `executeToolCall` await is environment input:
a successful response (with optional `resultDisplay` — already rendered to a
string, absorbing the `JSON.stringify` case — and response parts), a response
carrying an `error` field, or a thrown exception. -/

inductive ToolOutcome where
  | success (resultDisplay : Option String) (responseParts : List String)
  | failure (message : String) (resultDisplay : Option String)
      (responseParts : List String)
  | thrown (message : String)
deriving DecidableEq, Repr

/-- One scheduled step of the tool loop: the value of `signal.aborted` at the
loop-head check, and the outcome of `executeToolCall` for this tool. -/
def ToolStep := Bool × ToolOutcome
deriving DecidableEq, Repr

/-- Function `executeToolsAndGetResponses` from `useStreamingResponder.ts`, driven by
a schedule of `ToolStep`s.  Besides the updated store and the collected
response parts it returns the list of `updateToolCall(callId, update)`
operations it performed, in order, as an observable trace. -/
def executeToolsAndGetResponses (pendingTools : List ToolPendingEvent)
    (steps : List ToolStep) (st : Store) :
    Store × List String × List (String × ToolCallUpdate) :=
  match pendingTools, steps with
  | [], _ => (st, [], [])
  | _ :: _, [] => (st, [], [])
  | tool :: rest, (aborted, outcome) :: stepsRest =>
      if aborted then (st, [], [])
      else
        -- Mark as executing
        let u1 : ToolCallUpdate := { status := some .executing }
        let st1 := st.updateToolCall tool.id u1
        match outcome with
        | .success resultDisplay parts =>
            let u2 : ToolCallUpdate :=
              { status := some .complete, output := some resultDisplay }
            let r := executeToolsAndGetResponses rest stepsRest
              (st1.updateToolCall tool.id u2)
            (r.1, parts ++ r.2.1, (tool.id, u1) :: (tool.id, u2) :: r.2.2)
        | .failure message resultDisplay parts =>
            let u2 : ToolCallUpdate :=
              { status := some .error, errorMessage := some (some message),
                output := some resultDisplay }
            let r := executeToolsAndGetResponses rest stepsRest
              (st1.updateToolCall tool.id u2)
            (r.1, parts ++ r.2.1, (tool.id, u1) :: (tool.id, u2) :: r.2.2)
        | .thrown message =>
            let u2 : ToolCallUpdate :=
              { status := some .error, errorMessage := some (some message) }
            let r := executeToolsAndGetResponses rest stepsRest
              (st1.updateToolCall tool.id u2)
            (r.1, r.2.1, (tool.id, u1) :: (tool.id, u2) :: r.2.2)

/-! ### The run body: event loops with environment observations

Every `await` point lets the environment (a newer run, an unmount, an abort)
change the shared refs.  An `EnvObs` records the values of
`mountedRef.current`, `streamRunId.current` and `controller.signal.aborted`
as read at one checkpoint. -/

structure EnvObs where
  mounted : Bool
  curRun : Nat
  aborted : Bool
deriving DecidableEq, Repr

/-- One delivered stream event together with the ref values observed at that
iteration's check. -/
structure ObsEvent where
  obs : EnvObs
  event : AdapterEvent
deriving DecidableEq, Repr

/-- The initial streaming loop: before handling each event it checks
`!mountedRef.current || streamRunId.current !== currentRun` and breaks. -/
def runInitialLoop (currentRun : Nat) (events : List ObsEvent)
    (context : StreamContext) (st : Store) : StreamContext × Store :=
  match events with
  | [] => (context, st)
  | e :: rest =>
      if ¬e.obs.mounted ∨ e.obs.curRun ≠ currentRun then (context, st)
      else
        runInitialLoop currentRun rest (handleAdapterEvent e.event context st).1
          (handleAdapterEvent e.event context st).2

/-- The agentic-continuation streaming loop: before handling each event it
checks only `streamRunId.current !== currentRun` (no mounted check). -/
def runContinuationLoop (currentRun : Nat) (events : List ObsEvent)
    (context : StreamContext) (st : Store) : StreamContext × Store :=
  match events with
  | [] => (context, st)
  | e :: rest =>
      if e.obs.curRun ≠ currentRun then (context, st)
      else
        runContinuationLoop currentRun rest (handleAdapterEvent e.event context st).1
          (handleAdapterEvent e.event context st).2

/-- One round of the agentic `while` loop: the ref values observed at the
`while` condition, the tool-loop schedule, and the continuation stream. -/
structure Round where
  whileObs : EnvObs
  toolSteps : List ToolStep
  contEvents : List ObsEvent
deriving DecidableEq, Repr

/-- The agentic `while` loop of `useStreamingResponder.ts`:
`while (pendingToolRequests.length > 0 && mounted && runId === currentRun &&
!signal.aborted)` execute the tools, reset the context, and consume the
continuation stream. -/
def runRounds (currentRun : Nat) (rounds : List Round)
    (context : StreamContext) (st : Store) : Store :=
  match rounds with
  | [] => st
  | r :: rest =>
      if context.pendingToolRequests ≠ [] ∧ r.whileObs.mounted ∧
          r.whileObs.curRun = currentRun ∧ ¬r.whileObs.aborted then
        let st1 :=
          (executeToolsAndGetResponses context.pendingToolRequests r.toolSteps st).1
        let c2 := runContinuationLoop currentRun r.contEvents emptyStreamContext st1
        runRounds currentRun rest c2.1 c2.2
      else st

/-- A full schedule for one streaming run: the initial stream and as many
agentic rounds as the environment delivers. -/
structure RunSchedule where
  initEvents : List ObsEvent
  rounds : List Round
deriving DecidableEq, Repr

/-- The try-block body of one streaming run (after the prologue captured
`currentRun`): initial loop, then the agentic rounds. -/
def runBody (currentRun : Nat) (sched : RunSchedule) (st : Store) : Store :=
  let r := runInitialLoop currentRun sched.initEvents emptyStreamContext st
  runRounds currentRun sched.rounds r.1 r.2

/-- The catch handler of the streaming run (`useStreamingResponder.ts`
lines 275–279): report the error as a system message only when the abort
signal has not fired. -/
def catchHandler (signalAborted : Bool) (message : String) (st : Store) : Store :=
  if ¬signalAborted then (st.appendMessage .system ("Error: " ++ message)).1
  else st

/-! ## Session-config validation and the responder prologue

`validateSessionConfig` is from `llxprtConfig.ts`; the prologues are the
pre-streaming code of the two streaming-responder variants in the repo:
the `ConfigSession`-based hook (`src/hooks/useStreamingResponder.ts`, which
guards against a missing session) and the `SessionConfig`-based variant
(which guards with `validateSessionConfig`). -/

/-- The fields of `SessionConfig` read by `validateSessionConfig`
(`model?`, `apiKey?`, `keyFilePath?`, `baseUrl?`; `none` = key absent). -/
structure SessionConfig where
  model : Option String := none
  apiKey : Option String := none
  keyFilePath : Option String := none
  baseUrl : Option String := none
deriving DecidableEq, Repr

/-- JS truthiness of `field?.trim()`: false when the field is absent or its
trimmed value is the empty string. -/
def trimTruthy : Option String → Bool
  | none => false
  | some s => trimString s ≠ ""

/-- JS `Boolean(config.apiKey?.trim() ?? config.keyFilePath?.trim())`:
`??` falls through only when apiKey is absent, not when it trims empty. -/
def hasKey (config : SessionConfig) : Bool :=
  match config.apiKey with
  | some a => trimString a ≠ ""
  | none => trimTruthy config.keyFilePath

/-- Function `validateSessionConfig(config, options)` from `llxprtConfig.ts`.
`requireModel` stands for `options?.requireModel !== false`. -/
def validateSessionConfig (config : SessionConfig) (requireModel : Bool) :
    List String :=
  (if ¬trimTruthy config.baseUrl then ["Base URL not set. Use /baseurl <url>."]
   else []) ++
  (if requireModel ∧ ¬trimTruthy config.model then
    ["Model not set. Use /model <id>."] else []) ++
  (if ¬hasKey config then
    ["API key or keyfile not set. Use /key <token> or /keyfile <path>."]
   else [])

/-- The externally visible actions of a responder invocation prologue:
appending a system-role message, setting the stream state, and opening the
backend event stream. -/
inductive RespAction where
  | appendSystem (text : String)
  | setStreamState (s : StreamState)
  | openStream
deriving DecidableEq, Repr

/-- Prologue of `useStreamingResponder.ts` (`ConfigSession` variant): on a
null session append one system message and return; otherwise increment the
run id, abort the previous controller, set state to streaming and open the
stream.  `Option Unit` stands for `ConfigSession | null`. -/
def streamingResponderPrologue (session : Option Unit) : List RespAction :=
  match session with
  | none =>
      [.appendSystem
        "No active session. Load a profile first with /profile load <name>"]
  | some _ => [.setStreamState .streaming, .openStream]

/-- Prologue of the `SessionConfig`-based responder variant: validate the
config; on a non-empty missing list append one system message joining the
items and return; otherwise set state to streaming and open the stream. -/
def sessionResponderPrologue (session : SessionConfig) : List RespAction :=
  let missing := validateSessionConfig session true
  if missing ≠ [] then
    [.appendSystem (String.intercalate "\n" missing)]
  else [.setStreamState .streaming, .openStream]

/-! ## Prompt history (`usePromptHistory`) -/

inductive Direction where
  | up
  | down
deriving DecidableEq, Repr

/-- The mutable state of `usePromptHistory`: the (combined) entries array,
the navigation cursor, the armed last key press, and the textarea handle
(`none` = ref null, `some text` = current buffer content). -/
structure HistoryState where
  entries : List String
  index : Nat
  lastKey : Option (Direction × Nat)
  textarea : Option String
deriving DecidableEq, Repr

/-- Operation `record(prompt)`: push the prompt and reset the cursor past the end. -/
def recordPrompt (s : HistoryState) (prompt : String) : HistoryState :=
  { s with entries := s.entries ++ [prompt],
           index := s.entries.length + 1 }

/-- Operation `applyEntry(direction)`: navigate the cursor and fill the buffer;
returns false (no-op) on empty history or a null textarea ref. -/
def applyEntry (s : HistoryState) (direction : Direction) :
    HistoryState × Bool :=
  if s.entries = [] then (s, false)
  else
    match s.textarea with
    | none => (s, false)
    | some _ =>
        let newIndex :=
          match direction with
          | .up => s.index - 1
          | .down => min s.entries.length (s.index + 1)
        let value := s.entries.getD newIndex ""
        ({ s with index := newIndex, textarea := some value }, true)

/-- Operation `handleHistoryKey(direction)` at wall-clock time `now`: navigate only
when the armed press has the same direction and is less than 400ms old
(then disarm); otherwise arm this press and return false. -/
def handleHistoryKey (s : HistoryState) (direction : Direction) (now : Nat) :
    HistoryState × Bool :=
  match s.lastKey with
  | some (d, t) =>
      if d = direction ∧ now - t < 400 then
        ({ (applyEntry s direction).1 with lastKey := none },
         (applyEntry s direction).2)
      else ({ s with lastKey := some (direction, now) }, false)
  | none => ({ s with lastKey := some (direction, now) }, false)

/-! ## Observers and concrete scenario inputs used by the theorems -/

/-- The `kind` discriminant of a chat entry. -/
inductive EntryKind where
  | message
  | tool
  | toolcall
deriving DecidableEq, Repr

def ChatEntry.kind : ChatEntry → EntryKind
  | .message _ => .message
  | .tool _ => .tool
  | .toolcall _ => .toolcall

/-- The role of a message entry (`none` for other kinds). -/
def ChatEntry.messageRole : ChatEntry → Option Role
  | .message m => some m.role
  | _ => none

/-- The text of a message entry (`none` for other kinds). -/
def ChatEntry.messageText : ChatEntry → Option String
  | .message m => some m.text
  | _ => none

/-- The ToolCall payload of a toolcall entry (`none` for other kinds). -/
def ChatEntry.toolCallOf : ChatEntry → Option ToolCall
  | .toolcall t => some t
  | _ => none

/-- Default entry used with `List.getD` when indexing the transcript. -/
def defaultEntry : ChatEntry := .message { id := 0, role := .user, text := "" }

/-- The first update `executeToolsAndGetResponses` performs for a tool. -/
def executingUpdate : ToolCallUpdate := { status := some .executing }

/-- The second update `executeToolsAndGetResponses` performs for a tool,
determined by the outcome of `executeToolCall`. -/
def finalUpdate : ToolOutcome → ToolCallUpdate
  | .success resultDisplay _ =>
      { status := some .complete, output := some resultDisplay }
  | .failure message resultDisplay _ =>
      { status := some .error, errorMessage := some (some message),
        output := some resultDisplay }
  | .thrown message =>
      { status := some .error, errorMessage := some (some message) }

/-- The two transcript updates one tool contributes, in order. -/
def toolOps (tool : ToolPendingEvent) (outcome : ToolOutcome) :
    List (String × ToolCallUpdate) :=
  [(tool.id, executingUpdate), (tool.id, finalUpdate outcome)]

/-- Replay a list of `updateToolCall` operations over a transcript, in order. -/
def applyOps (entries : List ChatEntry) (ops : List (String × ToolCallUpdate)) :
    List ChatEntry :=
  ops.foldl (fun es op => updateToolCallEntries es op.1 op.2) entries

/-- The agentic scenario of spec §8: the initial stream yields one
`tool_pending`, the tool succeeds, and the continuation stream yields one
`text_delta`, with the component mounted and the run current throughout. -/
def agenticToolSchedule : RunSchedule :=
  { initEvents := [{ obs := { mounted := true, curRun := 1, aborted := false },
                     event := .tool_pending "call-1" "search" [] }],
    rounds := [{ whileObs := { mounted := true, curRun := 1, aborted := false },
                 toolSteps := [(false, .success (some "out") ["part"])],
                 contEvents := [{ obs := { mounted := true, curRun := 1, aborted := false },
                                  event := .text_delta "Done" }] }] }

/-- A schedule whose continuation stream delivers its only event while the
component is unmounted (`mounted := false`) but the run is still current:
the initial stream queues one tool, the tool succeeds, the component then
unmounts, and the continuation stream yields a `text_delta`. -/
def unmountedContSchedule : RunSchedule :=
  { initEvents := [{ obs := { mounted := true, curRun := 1, aborted := false },
                     event := .tool_pending "call-1" "search" [] }],
    rounds := [{ whileObs := { mounted := true, curRun := 1, aborted := false },
                 toolSteps := [(false, .success (some "out") [])],
                 contEvents := [{ obs := { mounted := false, curRun := 1, aborted := false },
                                  event := .text_delta "hello" }] }] }

/-- A schedule in which run 2 has already superseded run 1 when the first
event of run 1's initial stream arrives. -/
def supersededSchedule : RunSchedule :=
  { initEvents := [{ obs := { mounted := true, curRun := 2, aborted := false },
                     event := .text_delta "stale" }],
    rounds := [] }

/-! ## Helper lemmas -/

/-- If the iteration check fails at index `k`, the initial loop behaves as if
the stream ended after the first `k` events. -/
theorem runInitialLoop_stop_at (currentRun : Nat) :
    ∀ (events : List ObsEvent) (k : Nat) (context : StreamContext) (st : Store)
      (hk : k < events.length),
      (¬(events.get ⟨k, hk⟩).obs.mounted ∨
        (events.get ⟨k, hk⟩).obs.curRun ≠ currentRun) →
      runInitialLoop currentRun events context st =
        runInitialLoop currentRun (events.take k) context st := by
  intro events
  induction events with
  | nil =>
      intro k context st hk
      exact absurd hk (by simp)
  | cons e rest ih =>
      intro k context st hk hfail
      cases k with
      | zero =>
          simp only [List.get] at hfail
          simp only [List.take_zero]
          simp only [runInitialLoop]
          rw [if_pos hfail]
      | succ k' =>
          simp only [List.get] at hfail
          simp only [List.take_succ_cons]
          simp only [runInitialLoop]
          by_cases hg : ¬e.obs.mounted ∨ e.obs.curRun ≠ currentRun
          · rw [if_pos hg, if_pos hg]
          · rw [if_neg hg, if_neg hg]
            exact ih k' _ _ (by simpa using hk) hfail

/-- If the run id no longer matches at index `k`, the continuation loop
behaves as if the stream ended after the first `k` events. -/
theorem runContinuationLoop_stop_at (currentRun : Nat) :
    ∀ (events : List ObsEvent) (k : Nat) (context : StreamContext) (st : Store)
      (hk : k < events.length),
      (events.get ⟨k, hk⟩).obs.curRun ≠ currentRun →
      runContinuationLoop currentRun events context st =
        runContinuationLoop currentRun (events.take k) context st := by
  intro events
  induction events with
  | nil =>
      intro k context st hk
      exact absurd hk (by simp)
  | cons e rest ih =>
      intro k context st hk hfail
      cases k with
      | zero =>
          simp only [List.get] at hfail
          simp only [List.take_zero]
          simp only [runContinuationLoop]
          rw [if_pos hfail]
      | succ k' =>
          simp only [List.get] at hfail
          simp only [List.take_succ_cons]
          simp only [runContinuationLoop]
          by_cases hg : e.obs.curRun ≠ currentRun
          · rw [if_pos hg, if_pos hg]
          · rw [if_neg hg, if_neg hg]
            exact ih k' _ _ (by simpa using hk) hfail

/-- The continuation loop processes the head event whenever the run id
matches, whatever the observed `mounted` flag. -/
theorem runContinuationLoop_step (currentRun : Nat) (e : ObsEvent)
    (rest : List ObsEvent) (context : StreamContext) (st : Store)
    (h : e.obs.curRun = currentRun) :
    runContinuationLoop currentRun (e :: rest) context st =
      runContinuationLoop currentRun rest
        (handleAdapterEvent e.event context st).1
        (handleAdapterEvent e.event context st).2 := by
  simp only [runContinuationLoop]
  rw [if_neg (by simp [h])]

/-- Once the run id has moved past `currentRun`, the agentic while loop
performs no further mutation. -/
theorem runRounds_superseded (currentRun : Nat) (rounds : List Round)
    (context : StreamContext) (st : Store)
    (h : ∀ r ∈ rounds, r.whileObs.curRun ≠ currentRun) :
    runRounds currentRun rounds context st = st := by
  cases rounds with
  | nil => rfl
  | cons r rest =>
      simp only [runRounds]
      rw [if_neg]
      intro hc
      exact h r (List.mem_cons_self r rest) hc.2.2.1

/-- The store produced by the tool loop is exactly the in-order replay of
the update operations it reports. -/
theorem executeTools_entries :
    ∀ (pendingTools : List ToolPendingEvent) (steps : List ToolStep) (st : Store),
      (executeToolsAndGetResponses pendingTools steps st).1.entries =
        applyOps st.entries (executeToolsAndGetResponses pendingTools steps st).2.2
  | [], steps, st => rfl
  | _ :: _, [], st => rfl
  | tool :: rest, (aborted, outcome) :: srest, st => by
      cases aborted with
      | true => rfl
      | false =>
          cases outcome with
          | success rd parts =>
              simp only [executeToolsAndGetResponses, Bool.false_eq_true, if_false,
                applyOps, List.foldl]
              exact executeTools_entries rest srest _
          | failure msg rd parts =>
              simp only [executeToolsAndGetResponses, Bool.false_eq_true, if_false,
                applyOps, List.foldl]
              exact executeTools_entries rest srest _
          | thrown msg =>
              simp only [executeToolsAndGetResponses, Bool.false_eq_true, if_false,
                applyOps, List.foldl]
              exact executeTools_entries rest srest _

/-- With no abort, the tool loop performs, for every queued tool in order,
an `executing` update followed by the outcome's final update. -/
theorem executeTools_no_abort_ops :
    ∀ (pendingTools : List ToolPendingEvent) (outcomes : List ToolOutcome)
      (st : Store), pendingTools.length = outcomes.length →
      (executeToolsAndGetResponses pendingTools
          (outcomes.map fun o => (false, o)) st).2.2 =
        (List.zipWith toolOps pendingTools outcomes).flatten
  | [], [], st, _ => rfl
  | [], _ :: _, st, h => by simp at h
  | _ :: _, [], st, h => by simp at h
  | tool :: rest, o :: os, st, h => by
      have hlen : rest.length = os.length := by simpa using h
      have ihs := executeTools_no_abort_ops rest os
      cases o with
      | success rd parts =>
          simp only [List.map, executeToolsAndGetResponses, Bool.false_eq_true,
            if_false, List.zipWith, List.flatten, toolOps, executingUpdate, finalUpdate]
          simp [ihs _ hlen]
      | failure msg rd parts =>
          simp only [List.map, executeToolsAndGetResponses, Bool.false_eq_true,
            if_false, List.zipWith, List.flatten, toolOps, executingUpdate, finalUpdate]
          simp [ihs _ hlen]
      | thrown msg =>
          simp only [List.map, executeToolsAndGetResponses, Bool.false_eq_true,
            if_false, List.zipWith, List.flatten, toolOps, executingUpdate, finalUpdate]
          simp [ihs _ hlen]

/-- Indexing a mapped list below its length applies the function pointwise. -/
theorem getD_map_lt {α : Type} (l : List α) (f : α → α) (d : α) (i : Nat)
    (hi : i < l.length) :
    (l.map f).getD i d = f (l.getD i d) := by
  rw [List.getD_eq_getElem _ _ (by simpa using hi),
    List.getD_eq_getElem _ _ hi, List.getElem_map]

/-- A map whose function fixes every element of the list is the identity. -/
theorem map_eq_self_of_forall {α : Type} :
    ∀ (l : List α) (f : α → α), (∀ e ∈ l, f e = e) → l.map f = l
  | [], _, _ => rfl
  | x :: xs, f, h => by
      simp only [List.map]
      rw [h x (List.mem_cons_self x xs),
        map_eq_self_of_forall xs f fun e he => h e (List.mem_cons_of_mem x he)]

/-- The appendToMessage callback preserves the entry id. -/
theorem appendToMessageEntry_entryId (id : Nat) (text : String) (e : ChatEntry) :
    (appendToMessageEntry id text e).entryId = e.entryId := by
  cases e with
  | message m =>
      by_cases h : m.id = id <;>
        simp [appendToMessageEntry, ChatEntry.entryId, h]
  | tool b => rfl
  | toolcall t => rfl

/-- The appendToMessage callback preserves the entry kind. -/
theorem appendToMessageEntry_kind (id : Nat) (text : String) (e : ChatEntry) :
    (appendToMessageEntry id text e).kind = e.kind := by
  cases e with
  | message m =>
      by_cases h : m.id = id <;>
        simp [appendToMessageEntry, ChatEntry.kind, h]
  | tool b => rfl
  | toolcall t => rfl

/-- The appendToMessage callback fixes every non-matching entry. -/
theorem appendToMessageEntry_no_match (id : Nat) (text : String) (e : ChatEntry)
    (h : ¬e.isMessageWithId id) :
    appendToMessageEntry id text e = e := by
  cases e with
  | message m =>
      rw [appendToMessageEntry, if_neg]
      simpa [ChatEntry.isMessageWithId] using h
  | tool b => rfl
  | toolcall t => rfl

/-- On the matching message the callback keeps the role and appends the text. -/
theorem appendToMessageEntry_match (id : Nat) (text : String) (e : ChatEntry)
    (h : e.isMessageWithId id) :
    (appendToMessageEntry id text e).messageRole = e.messageRole ∧
    (appendToMessageEntry id text e).messageText = e.messageText.map (· ++ text) := by
  cases e with
  | message m =>
      have hm : m.id = id := h
      simp [appendToMessageEntry, hm, ChatEntry.messageRole, ChatEntry.messageText]
  | tool b => exact absurd h (by simp [ChatEntry.isMessageWithId])
  | toolcall t => exact absurd h (by simp [ChatEntry.isMessageWithId])

/-- The updateToolCall callback preserves the entry id. -/
theorem updateToolCallEntry_entryId (callId : String) (u : ToolCallUpdate)
    (e : ChatEntry) :
    (updateToolCallEntry callId u e).entryId = e.entryId := by
  cases e with
  | message m => rfl
  | tool b => rfl
  | toolcall t =>
      by_cases h : t.callId = callId <;>
        simp [updateToolCallEntry, ChatEntry.entryId, applyToolCallUpdate, h]

/-- The updateToolCall callback preserves the entry kind. -/
theorem updateToolCallEntry_kind (callId : String) (u : ToolCallUpdate)
    (e : ChatEntry) :
    (updateToolCallEntry callId u e).kind = e.kind := by
  cases e with
  | message m => rfl
  | tool b => rfl
  | toolcall t =>
      by_cases h : t.callId = callId <;>
        simp [updateToolCallEntry, ChatEntry.kind, h]

/-- The updateToolCall callback fixes every non-matching entry. -/
theorem updateToolCallEntry_no_match (callId : String) (u : ToolCallUpdate)
    (e : ChatEntry) (h : ¬e.isToolCallWithCallId callId) :
    updateToolCallEntry callId u e = e := by
  cases e with
  | message m => rfl
  | tool b => rfl
  | toolcall t =>
      rw [updateToolCallEntry, if_neg]
      simpa [ChatEntry.isToolCallWithCallId] using h

/-- On the matching toolcall the callback applies exactly the spread. -/
theorem updateToolCallEntry_match (callId : String) (u : ToolCallUpdate)
    (e : ChatEntry) (h : e.isToolCallWithCallId callId) :
    (updateToolCallEntry callId u e).toolCallOf =
      e.toolCallOf.map fun tc => applyToolCallUpdate tc u := by
  cases e with
  | message m => exact absurd h (by simp [ChatEntry.isToolCallWithCallId])
  | tool b => exact absurd h (by simp [ChatEntry.isToolCallWithCallId])
  | toolcall t =>
      have ht : t.callId = callId := h
      simp [updateToolCallEntry, ht, ChatEntry.toolCallOf]

/-- The updateToolBlock callback fixes every non-matching entry. -/
theorem updateToolBlockEntry_no_match (id : Nat)
    (mutate : ChatEntry → ChatEntry) (e : ChatEntry)
    (h : ¬e.isToolBlockWithId id) :
    updateToolBlockEntry id mutate e = e := by
  cases e with
  | message m => rfl
  | tool b =>
      rw [updateToolBlockEntry, if_neg]
      simpa [ChatEntry.isToolBlockWithId] using h
  | toolcall t =>
      rw [updateToolBlockEntry, if_neg]
      simpa [ChatEntry.isToolBlockWithId] using h

/-- On a matching tool or toolcall entry the callback applies exactly the
caller-supplied `mutate`, in place. -/
theorem updateToolBlockEntry_match (id : Nat)
    (mutate : ChatEntry → ChatEntry) (e : ChatEntry)
    (h : e.isToolBlockWithId id) :
    updateToolBlockEntry id mutate e = mutate e := by
  cases e with
  | message m => exact absurd h (by simp [ChatEntry.isToolBlockWithId])
  | tool b =>
      have hb : b.id = id := h
      simp [updateToolBlockEntry, hb]
  | toolcall t =>
      have ht : t.id = id := h
      simp [updateToolBlockEntry, ht]

/-! ## Claim theorems -/

/-- C1: Run-id fencing on supersession.  If run N+1 has started before run
N's event loop exits — so the run-id counter, which only increments, differs
from run N's captured id at its next event iteration (index `k` of the
initial stream) and at every later checkpoint (every round's while-check) —
then run N's whole body leaves the store exactly as it was at that
iteration: it stops consuming and never again appends a message, appends a
tool call, or updates a tool call. -/
theorem runId_fencing_stops_transcript_mutation (currentRun k : Nat)
    (sched : RunSchedule) (st : Store) (hk : k < sched.initEvents.length)
    (hsup : (sched.initEvents.get ⟨k, hk⟩).obs.curRun ≠ currentRun)
    (hrounds : ∀ r ∈ sched.rounds, r.whileObs.curRun ≠ currentRun) :
    runBody currentRun sched st =
      (runInitialLoop currentRun (sched.initEvents.take k)
        emptyStreamContext st).2 := by
  unfold runBody
  rw [runInitialLoop_stop_at currentRun sched.initEvents k emptyStreamContext st
    hk (Or.inr hsup)]
  exact runRounds_superseded currentRun sched.rounds _ _ hrounds

/-- Witness for C1: under `supersededSchedule` (run 2 already current at run
1's first iteration) run 1 mutates nothing. -/
theorem runId_fencing_witness :
    runBody 1 supersededSchedule emptyStore =
      (runInitialLoop 1 (supersededSchedule.initEvents.take 0)
        emptyStreamContext emptyStore).2 :=
  runId_fencing_stops_transcript_mutation 1 0 supersededSchedule emptyStore
    (by decide) (by decide)
    (by intro r hr; simp [supersededSchedule] at hr)

/-- C2 counterexample: the claim says the consumer checks `mounted` before
every event of every agentic-continuation stream, so that no event is
processed and no transcript write occurs after unmount.  In
`unmountedContSchedule` the only continuation event is observed with
`mounted = false` and the run id still current — yet the run processes it
and appends a model message to the transcript. -/
theorem continuation_writes_after_unmount_cex :
    (unmountedContSchedule.rounds.map Round.contEvents) =
      [[{ obs := { mounted := false, curRun := 1, aborted := false },
          event := .text_delta "hello" }]] ∧
    (runBody 1 unmountedContSchedule emptyStore).entries =
      [.toolcall { id := 0, callId := "call-1", name := "search",
                   params := [], status := .complete, output := some "out",
                   errorMessage := none, confirmation := none },
       .message { id := 1, role := .model, text := "hello" }] :=
  ⟨rfl, by decide⟩

/-- C2 amended: the initial event loop checks `mounted && runId === current`
before every event and stops when either fails; the agentic-continuation
loop checks only the run id before every event (mounted is checked only in
the while condition between rounds), so it still processes an event observed
after unmount as long as the run id matches. -/
theorem mounted_check_initial_loop_only (currentRun : Nat)
    (initEvents contEvents : List ObsEvent) (k j : Nat)
    (context : StreamContext) (st : Store) (e : ObsEvent)
    (rest : List ObsEvent)
    (hk : k < initEvents.length) (hj : j < contEvents.length)
    (hkm : ¬(initEvents.get ⟨k, hk⟩).obs.mounted)
    (hjr : (contEvents.get ⟨j, hj⟩).obs.curRun ≠ currentRun)
    (he : e.obs.curRun = currentRun) :
    (runInitialLoop currentRun initEvents context st =
      runInitialLoop currentRun (initEvents.take k) context st) ∧
    (runContinuationLoop currentRun contEvents context st =
      runContinuationLoop currentRun (contEvents.take j) context st) ∧
    (runContinuationLoop currentRun (e :: rest) context st =
      runContinuationLoop currentRun rest
        (handleAdapterEvent e.event context st).1
        (handleAdapterEvent e.event context st).2) :=
  ⟨runInitialLoop_stop_at currentRun initEvents k context st hk (Or.inl hkm),
   runContinuationLoop_stop_at currentRun contEvents j context st hj hjr,
   runContinuationLoop_step currentRun e rest context st he⟩

/-- Witness for the amended C2 at concrete inputs: an unmounted observation
stops the initial loop; a stale run id stops the continuation loop; an
unmounted but current observation is still processed by the continuation
loop. -/
theorem mounted_check_initial_loop_only_witness :
    (runInitialLoop 1
        [{ obs := { mounted := false, curRun := 1, aborted := false },
           event := .text_delta "x" }] emptyStreamContext emptyStore =
      runInitialLoop 1
        ([{ obs := { mounted := false, curRun := 1, aborted := false },
            event := .text_delta "x" }].take 0) emptyStreamContext emptyStore) ∧
    (runContinuationLoop 1
        [{ obs := { mounted := true, curRun := 2, aborted := false },
           event := .complete }] emptyStreamContext emptyStore =
      runContinuationLoop 1
        ([{ obs := { mounted := true, curRun := 2, aborted := false },
            event := .complete }].take 0) emptyStreamContext emptyStore) ∧
    (runContinuationLoop 1
        [{ obs := { mounted := false, curRun := 1, aborted := false },
           event := .text_delta "hello" }] emptyStreamContext emptyStore =
      runContinuationLoop 1 []
        (handleAdapterEvent (.text_delta "hello") emptyStreamContext emptyStore).1
        (handleAdapterEvent (.text_delta "hello") emptyStreamContext emptyStore).2) := by
  have h := mounted_check_initial_loop_only 1
    [{ obs := { mounted := false, curRun := 1, aborted := false },
       event := .text_delta "x" }]
    [{ obs := { mounted := true, curRun := 2, aborted := false },
       event := .complete }] 0 0 emptyStreamContext emptyStore
    { obs := { mounted := false, curRun := 1, aborted := false },
      event := .text_delta "hello" } []
    (by decide) (by decide) (by decide) (by decide) (by decide)
  exact ⟨h.1, h.2.1, h.2.2⟩

/-- C6: Cancellation is not an error.  The catch handler of the streaming
run appends exactly one system message `"Error: <message>"` when the abort
signal has not fired, and swallows the exception with no transcript entry
when it has. -/
theorem cancellation_not_an_error (message : String) (st : Store) :
    catchHandler true message st = st ∧
    (catchHandler false message st).entries =
      st.entries ++
        [.message { id := st.nextId, role := .system,
                    text := "Error: " ++ message }] := by
  constructor
  · simp [catchHandler]
  · simp [catchHandler, Store.appendMessage]


/-- C3: Delta-handling postcondition for `text_delta` and `thinking_delta`:
with no open message of the role, a whitespace-only delta leaves context and
store unchanged; a non-whitespace delta appends exactly one new message of
that role containing the text and records it as the open message; with an
open message, the text is appended to that message and no entry is created
(the transcript keeps its length). -/
theorem delta_handling_postcondition (context : StreamContext) (st : Store)
    (text : String) (mid : Nat) :
    (context.modelMessageId = none → trimString text = "" →
      handleAdapterEvent (.text_delta text) context st = (context, st)) ∧
    (context.modelMessageId = none → trimString text ≠ "" →
      (handleAdapterEvent (.text_delta text) context st).2.entries =
        st.entries ++ [.message { id := st.nextId, role := .model, text := text }] ∧
      (handleAdapterEvent (.text_delta text) context st).1 =
        { context with modelMessageId := some st.nextId }) ∧
    (context.modelMessageId = some mid →
      (handleAdapterEvent (.text_delta text) context st).1 = context ∧
      (handleAdapterEvent (.text_delta text) context st).2.entries =
        appendToMessageEntries st.entries mid text ∧
      (handleAdapterEvent (.text_delta text) context st).2.entries.length =
        st.entries.length) ∧
    (context.thinkingMessageId = none → trimString text = "" →
      handleAdapterEvent (.thinking_delta text) context st = (context, st)) ∧
    (context.thinkingMessageId = none → trimString text ≠ "" →
      (handleAdapterEvent (.thinking_delta text) context st).2.entries =
        st.entries ++ [.message { id := st.nextId, role := .thinking, text := text }] ∧
      (handleAdapterEvent (.thinking_delta text) context st).1 =
        { context with thinkingMessageId := some st.nextId }) ∧
    (context.thinkingMessageId = some mid →
      (handleAdapterEvent (.thinking_delta text) context st).1 = context ∧
      (handleAdapterEvent (.thinking_delta text) context st).2.entries =
        appendToMessageEntries st.entries mid text ∧
      (handleAdapterEvent (.thinking_delta text) context st).2.entries.length =
        st.entries.length) := by
  refine ⟨?_, ?_, ?_, ?_, ?_, ?_⟩
  · intro h1 h2
    simp [handleAdapterEvent, h1, h2]
  · intro h1 h2
    simp [handleAdapterEvent, h1, h2, Store.appendMessage]
  · intro h1
    simp [handleAdapterEvent, h1, Store.appendToMessage, appendToMessageEntries]
  · intro h1 h2
    simp [handleAdapterEvent, h1, h2]
  · intro h1 h2
    simp [handleAdapterEvent, h1, h2, Store.appendMessage]
  · intro h1
    simp [handleAdapterEvent, h1, Store.appendToMessage, appendToMessageEntries]

/-- Witness for C3: a first non-whitespace delta creates one model message
and opens it. -/
theorem delta_handling_witness :
    (handleAdapterEvent (.text_delta "hi") emptyStreamContext emptyStore).2.entries =
      emptyStore.entries ++
        [.message { id := emptyStore.nextId, role := .model, text := "hi" }] ∧
    (handleAdapterEvent (.text_delta "hi") emptyStreamContext emptyStore).1 =
      { emptyStreamContext with modelMessageId := some emptyStore.nextId } :=
  (delta_handling_postcondition emptyStreamContext emptyStore "hi" 0).2.1
    rfl (by decide)


/-- C4: a `tool_pending` event appends a ToolCall entry with status pending
keyed by the backend callId and resets both open-message ids to null; a
subsequent non-whitespace `text_delta` therefore appends a fresh model
message instead of appending to a pre-tool message; in the concrete agentic
scenario (one `tool_pending`, successful tool execution, then a
`text_delta`), the final transcript is the ToolCall with status complete
followed by a new model message. -/
theorem tool_pending_closes_open_messages (context : StreamContext)
    (st st2 : Store) (cid name : String) (params : Params) (text : String) :
    ((handleAdapterEvent (.tool_pending cid name params) context st).1.modelMessageId
      = none) ∧
    ((handleAdapterEvent (.tool_pending cid name params) context st).1.thinkingMessageId
      = none) ∧
    ((handleAdapterEvent (.tool_pending cid name params) context st).2.entries =
      st.entries ++
        [.toolcall { id := st.nextId, callId := cid, name := name,
                     params := params, status := .pending, output := none,
                     errorMessage := none, confirmation := none }]) ∧
    (trimString text ≠ "" →
      (handleAdapterEvent (.text_delta text)
          (handleAdapterEvent (.tool_pending cid name params) context st).1
          st2).2.entries =
        st2.entries ++
          [.message { id := st2.nextId, role := .model, text := text }]) ∧
    ((runBody 1 agenticToolSchedule emptyStore).entries =
      [.toolcall { id := 0, callId := "call-1", name := "search",
                   params := [], status := .complete, output := some "out",
                   errorMessage := none, confirmation := none },
       .message { id := 1, role := .model, text := "Done" }]) := by
  refine ⟨rfl, rfl, ?_, ?_, by decide⟩
  · simp [handleAdapterEvent, Store.appendToolCall]
  · intro h
    simp [handleAdapterEvent, h, Store.appendMessage, Store.appendToolCall]

/-- Witness for C4: after a `tool_pending`, a `text_delta` appends a fresh
model message. -/
theorem tool_pending_witness :
    (handleAdapterEvent (.text_delta "Done")
        (handleAdapterEvent (.tool_pending "call-1" "search" [])
          emptyStreamContext emptyStore).1
        emptyStore).2.entries =
      emptyStore.entries ++
        [.message { id := emptyStore.nextId, role := .model, text := "Done" }] :=
  (tool_pending_closes_open_messages emptyStreamContext emptyStore emptyStore
    "call-1" "search" [] "Done").2.2.2.1 (by decide)


/-- C5: local validation failure is local.  The `ConfigSession` responder,
invoked with a missing session, appends exactly one system message and
returns without setting the stream state to streaming or opening the
backend stream; the `SessionConfig` responder variant, when
`validateSessionConfig` returns a non-empty missing list, appends exactly
one system message listing the missing items and likewise never streams. -/
theorem local_validation_failure_is_local (config : SessionConfig) :
    (streamingResponderPrologue none =
      [.appendSystem
        "No active session. Load a profile first with /profile load <name>"]) ∧
    (RespAction.openStream ∉ streamingResponderPrologue none) ∧
    (RespAction.setStreamState .streaming ∉ streamingResponderPrologue none) ∧
    (validateSessionConfig config true ≠ [] →
      sessionResponderPrologue config =
        [.appendSystem
          (String.intercalate "\n" (validateSessionConfig config true))] ∧
      RespAction.openStream ∉ sessionResponderPrologue config ∧
      RespAction.setStreamState .streaming ∉ sessionResponderPrologue config) := by
  refine ⟨rfl, by simp [streamingResponderPrologue], by simp [streamingResponderPrologue], ?_⟩
  intro h
  refine ⟨?_, ?_, ?_⟩ <;> simp [sessionResponderPrologue, h]

/-- Witness for C5: the empty session configuration fails validation and
produces exactly one system message, never streaming. -/
theorem local_validation_failure_witness :
    sessionResponderPrologue {} =
      [.appendSystem
        (String.intercalate "\n" (validateSessionConfig {} true))] ∧
    RespAction.openStream ∉ sessionResponderPrologue {} ∧
    RespAction.setStreamState .streaming ∉ sessionResponderPrologue {} :=
  (local_validation_failure_is_local {}).2.2.2 (by decide)

/-- C7: `executeToolsAndGetResponses` executes the queued tools strictly
sequentially in enqueued order — its store is the in-order replay of the
update trace it performs; with no abort, that trace is, for every tool in
order, an `executing` update followed by the outcome-determined
complete/error update, so a failing or throwing tool never prevents a later
tool from executing; an already-aborted signal stops the remaining tools
with no further updates. -/
theorem sequential_tool_execution_error_isolation
    (pendingTools rest : List ToolPendingEvent) (outcomes : List ToolOutcome)
    (steps : List ToolStep) (st : Store) (tool : ToolPendingEvent)
    (o : ToolOutcome) :
    ((executeToolsAndGetResponses pendingTools steps st).1.entries =
      applyOps st.entries
        (executeToolsAndGetResponses pendingTools steps st).2.2) ∧
    (pendingTools.length = outcomes.length →
      (executeToolsAndGetResponses pendingTools
          (outcomes.map fun o => (false, o)) st).2.2 =
        (List.zipWith toolOps pendingTools outcomes).flatten) ∧
    (executeToolsAndGetResponses (tool :: rest) ((true, o) :: steps) st =
      (st, [], [])) :=
  ⟨executeTools_entries pendingTools steps st,
   fun h => executeTools_no_abort_ops pendingTools outcomes st h,
   rfl⟩

/-- Witness for C7: with a failing first tool and a succeeding second tool,
the trace contains both tools' executing/final updates in order — the
failure does not stop the second tool. -/
theorem sequential_tool_execution_witness :
    (executeToolsAndGetResponses
        [{ id := "c1", name := "t1", params := [] },
         { id := "c2", name := "t2", params := [] }]
        ([ToolOutcome.thrown "boom",
          ToolOutcome.success (some "ok") []].map fun o => (false, o))
        emptyStore).2.2 =
      (List.zipWith toolOps
        [{ id := "c1", name := "t1", params := [] },
         { id := "c2", name := "t2", params := [] }]
        [ToolOutcome.thrown "boom",
         ToolOutcome.success (some "ok") []]).flatten :=
  (sequential_tool_execution_error_isolation
    [{ id := "c1", name := "t1", params := [] },
     { id := "c2", name := "t2", params := [] }] []
    [ToolOutcome.thrown "boom", ToolOutcome.success (some "ok") []]
    [] emptyStore { id := "x", name := "x", params := [] }
    (ToolOutcome.thrown "x")).2.1 rfl


/-- Concrete one-message store used by the C8 witness. -/
def witnessStore : Store :=
  { entries := [.message { id := 5, role := .model, text := "draft" }],
    nextId := 6, wordCount := 1 }

/-- C8: the chat store is append-only.  The three append operations add
exactly one entry at the end leaving existing entries unchanged;
`appendToMessage` and `updateToolCall` preserve length, order, ids, and
kinds, leave every non-addressed entry untouched, and mutate only the text
of the addressed message (role preserved, text extended) or the
status/output/errorMessage/confirmation of the addressed tool call (id and
callId always preserved; name and params preserved whenever the update
carries no such key — and the named updates the streaming code constructs,
`executingUpdate` and every `finalUpdate`, carry no such key);
`updateToolBlock` likewise preserves length and every non-addressed entry
and replaces the addressed tool entry in place by the caller-supplied
`mutate` of it — so no operation removes or reorders entries. -/
theorem chat_store_append_only (st : Store) (role : Role) (text delta : String)
    (lines : List String) (isBatch : Bool) (scrollable : Option Bool)
    (maxHeight : Option Nat) (streaming : Option Bool)
    (callId nm : String) (params : Params) (mid : Nat)
    (u : ToolCallUpdate) (i : Nat) (t : ToolCall)
    (bid : Nat) (mutate : ChatEntry → ChatEntry) (o : ToolOutcome) :
    ((st.appendMessage role text).1.entries =
      st.entries ++ [.message { id := st.nextId, role := role, text := text }]) ∧
    ((st.appendToolBlock lines isBatch scrollable maxHeight streaming).1.entries =
      st.entries ++
        [.tool { id := st.nextId, lines := lines, isBatch := isBatch,
                 scrollable := scrollable, maxHeight := maxHeight,
                 streaming := streaming }]) ∧
    ((st.appendToolCall callId nm params).1.entries =
      st.entries ++
        [.toolcall { id := st.nextId, callId := callId, name := nm,
                     params := params, status := .pending, output := none,
                     errorMessage := none, confirmation := none }]) ∧
    ((st.appendToMessage mid delta).entries.length = st.entries.length) ∧
    ((st.updateToolCall callId u).entries.length = st.entries.length) ∧
    (i < st.entries.length →
      ((st.appendToMessage mid delta).entries.getD i defaultEntry).entryId =
        (st.entries.getD i defaultEntry).entryId ∧
      ((st.appendToMessage mid delta).entries.getD i defaultEntry).kind =
        (st.entries.getD i defaultEntry).kind ∧
      (¬(st.entries.getD i defaultEntry).isMessageWithId mid →
        (st.appendToMessage mid delta).entries.getD i defaultEntry =
          st.entries.getD i defaultEntry) ∧
      ((st.entries.getD i defaultEntry).isMessageWithId mid →
        ((st.appendToMessage mid delta).entries.getD i defaultEntry).messageRole =
          (st.entries.getD i defaultEntry).messageRole ∧
        ((st.appendToMessage mid delta).entries.getD i defaultEntry).messageText =
          (st.entries.getD i defaultEntry).messageText.map (· ++ delta))) ∧
    (i < st.entries.length →
      ((st.updateToolCall callId u).entries.getD i defaultEntry).entryId =
        (st.entries.getD i defaultEntry).entryId ∧
      ((st.updateToolCall callId u).entries.getD i defaultEntry).kind =
        (st.entries.getD i defaultEntry).kind ∧
      (¬(st.entries.getD i defaultEntry).isToolCallWithCallId callId →
        (st.updateToolCall callId u).entries.getD i defaultEntry =
          st.entries.getD i defaultEntry) ∧
      ((st.entries.getD i defaultEntry).isToolCallWithCallId callId →
        ((st.updateToolCall callId u).entries.getD i defaultEntry).toolCallOf =
          (st.entries.getD i defaultEntry).toolCallOf.map
            fun tc => applyToolCallUpdate tc u)) ∧
    ((applyToolCallUpdate t u).id = t.id ∧
     (applyToolCallUpdate t u).callId = t.callId ∧
     (u.name = none → (applyToolCallUpdate t u).name = t.name) ∧
     (u.params = none → (applyToolCallUpdate t u).params = t.params) ∧
     (applyToolCallUpdate t u).status = u.status.getD t.status) ∧
    ((st.updateToolBlock bid mutate).entries.length = st.entries.length) ∧
    (i < st.entries.length →
      ¬(st.entries.getD i defaultEntry).isToolBlockWithId bid →
      (st.updateToolBlock bid mutate).entries.getD i defaultEntry =
        st.entries.getD i defaultEntry) ∧
    (i < st.entries.length →
      (st.entries.getD i defaultEntry).isToolBlockWithId bid →
      (st.updateToolBlock bid mutate).entries.getD i defaultEntry =
        mutate (st.entries.getD i defaultEntry)) ∧
    (executingUpdate.name = none ∧ executingUpdate.params = none ∧
     (finalUpdate o).name = none ∧ (finalUpdate o).params = none) := by
  have hATM : (st.appendToMessage mid delta).entries =
      st.entries.map (appendToMessageEntry mid delta) := rfl
  have hUTC : (st.updateToolCall callId u).entries =
      st.entries.map (updateToolCallEntry callId u) := rfl
  have hUTB : (st.updateToolBlock bid mutate).entries =
      st.entries.map (updateToolBlockEntry bid mutate) := rfl
  refine ⟨rfl, rfl, rfl, ?_, ?_, ?_, ?_, ?_, ?_, ?_, ?_, ?_⟩
  · rw [hATM, List.length_map]
  · rw [hUTC, List.length_map]
  · intro hi
    rw [hATM, getD_map_lt st.entries (appendToMessageEntry mid delta)
      defaultEntry i hi]
    exact ⟨appendToMessageEntry_entryId mid delta _,
           appendToMessageEntry_kind mid delta _,
           fun h => appendToMessageEntry_no_match mid delta _ h,
           fun h => appendToMessageEntry_match mid delta _ h⟩
  · intro hi
    rw [hUTC, getD_map_lt st.entries (updateToolCallEntry callId u)
      defaultEntry i hi]
    exact ⟨updateToolCallEntry_entryId callId u _,
           updateToolCallEntry_kind callId u _,
           fun h => updateToolCallEntry_no_match callId u _ h,
           fun h => updateToolCallEntry_match callId u _ h⟩
  · refine ⟨rfl, rfl, ?_, ?_, rfl⟩
    · intro h; simp [applyToolCallUpdate, h]
    · intro h; simp [applyToolCallUpdate, h]
  · rw [hUTB, List.length_map]
  · intro hi hnm
    rw [hUTB, getD_map_lt st.entries (updateToolBlockEntry bid mutate)
      defaultEntry i hi]
    exact updateToolBlockEntry_no_match bid mutate _ hnm
  · intro hi hm
    rw [hUTB, getD_map_lt st.entries (updateToolBlockEntry bid mutate)
      defaultEntry i hi]
    exact updateToolBlockEntry_match bid mutate _ hm
  · refine ⟨rfl, rfl, ?_, ?_⟩ <;> cases o <;> rfl

/-- Witness for C8: appending to the open message of `witnessStore` keeps
its role and extends its text. -/
theorem chat_store_append_only_witness :
    ((witnessStore.appendToMessage 5 "!").entries.getD 0 defaultEntry).messageRole =
      (witnessStore.entries.getD 0 defaultEntry).messageRole ∧
    ((witnessStore.appendToMessage 5 "!").entries.getD 0 defaultEntry).messageText =
      (witnessStore.entries.getD 0 defaultEntry).messageText.map (· ++ "!") :=
  by
  have h := chat_store_append_only witnessStore .user "" "!" [] false none none
    none "c" "n" [] 5 {} 0
    { id := 0, callId := "c", name := "n", params := [], status := .pending,
      output := none, errorMessage := none, confirmation := none }
    0 (fun e => e) (.thrown "x")
  exact (h.2.2.2.2.2.1 (by decide)).2.2.2 (by decide)


/-- C9: the history double-press debounce.  A press with no armed press, a
press in a different direction, or a press 400ms or more after the armed
one does not navigate: it returns false and (re)arms from its own
timestamp.  A press in the armed direction strictly within 400ms applies
history navigation and disarms; in particular two `up` presses within 400ms
right after recording a prompt fill the buffer with that most recently
recorded entry. -/
theorem history_double_press_debounce (s : HistoryState)
    (direction d0 : Direction) (now t0 t1 t2 : Nat) (prompt buf : String) :
    (s.lastKey = none →
      handleHistoryKey s direction now =
        ({ s with lastKey := some (direction, now) }, false)) ∧
    (s.lastKey = some (d0, t0) → d0 ≠ direction ∨ 400 ≤ now - t0 →
      handleHistoryKey s direction now =
        ({ s with lastKey := some (direction, now) }, false)) ∧
    (s.lastKey = some (direction, t0) → now - t0 < 400 →
      handleHistoryKey s direction now =
        ({ (applyEntry s direction).1 with lastKey := none },
         (applyEntry s direction).2)) ∧
    (t2 - t1 < 400 →
      (handleHistoryKey
        (recordPrompt { s with textarea := some buf, lastKey := none } prompt)
        .up t1).2 = false ∧
      (handleHistoryKey
        (recordPrompt { s with textarea := some buf, lastKey := none } prompt)
        .up t1).1.lastKey = some (.up, t1) ∧
      (handleHistoryKey
        (handleHistoryKey
          (recordPrompt { s with textarea := some buf, lastKey := none } prompt)
          .up t1).1 .up t2).2 = true ∧
      (handleHistoryKey
        (handleHistoryKey
          (recordPrompt { s with textarea := some buf, lastKey := none } prompt)
          .up t1).1 .up t2).1.textarea = some prompt ∧
      (handleHistoryKey
        (handleHistoryKey
          (recordPrompt { s with textarea := some buf, lastKey := none } prompt)
          .up t1).1 .up t2).1.lastKey = none) := by
  refine ⟨?_, ?_, ?_, ?_⟩
  · intro h
    simp [handleHistoryKey, h]
  · intro h hcond
    have hc : ¬(d0 = direction ∧ now - t0 < 400) := by
      rintro ⟨h1, h2⟩
      rcases hcond with hd | ht
      · exact hd h1
      · omega
    simp [handleHistoryKey, h, hc]
  · intro h hlt
    simp [handleHistoryKey, h, hlt]
  · intro h
    have hget : (s.entries ++ [prompt]).getD s.entries.length "" = prompt := by
      rw [List.getD_eq_getElem?_getD, List.getElem?_concat_length]
      rfl
    refine ⟨?_, ?_, ?_, ?_, ?_⟩ <;>
      simp [handleHistoryKey, recordPrompt, applyEntry, h, hget]

/-- Witness for C9: from one recorded prompt, the first `up` press arms and
the second within 400ms fills the buffer with that prompt. -/
theorem history_double_press_witness :
    (handleHistoryKey
      (recordPrompt { entries := [], index := 0, lastKey := none,
                      textarea := some "" } "first") .up 1000).2 = false ∧
    (handleHistoryKey
      (recordPrompt { entries := [], index := 0, lastKey := none,
                      textarea := some "" } "first") .up 1000).1.lastKey =
      some (.up, 1000) ∧
    (handleHistoryKey
      (handleHistoryKey
        (recordPrompt { entries := [], index := 0, lastKey := none,
                        textarea := some "" } "first") .up 1000).1
      .up 1100).2 = true ∧
    (handleHistoryKey
      (handleHistoryKey
        (recordPrompt { entries := [], index := 0, lastKey := none,
                        textarea := some "" } "first") .up 1000).1
      .up 1100).1.textarea = some "first" ∧
    (handleHistoryKey
      (handleHistoryKey
        (recordPrompt { entries := [], index := 0, lastKey := none,
                        textarea := some "" } "first") .up 1000).1
      .up 1100).1.lastKey = none := by
  have h := history_double_press_debounce
    { entries := [], index := 0, lastKey := none, textarea := some "" }
    .up .up 0 0 1000 1100 "first" ""
  exact h.2.2.2 (by decide)

/-- C10: unmatched updates are silent no-ops.  `updateToolCall` with an
unknown callId and `appendToMessage` with an unknown id leave the entry
sequence unchanged (both are total functions — nothing throws); when a
match exists every non-matching entry is untouched, kinds are preserved,
and the matched tool call keeps its id and callId. -/
theorem unmatched_updates_silent_noop (entries : List ChatEntry)
    (callId : String) (u : ToolCallUpdate) (mid : Nat) (text : String)
    (i : Nat) (t : ToolCall) :
    ((∀ e ∈ entries, ¬e.isToolCallWithCallId callId) →
      updateToolCallEntries entries callId u = entries) ∧
    ((∀ e ∈ entries, ¬e.isMessageWithId mid) →
      appendToMessageEntries entries mid text = entries) ∧
    (i < entries.length →
      ¬(entries.getD i defaultEntry).isToolCallWithCallId callId →
      (updateToolCallEntries entries callId u).getD i defaultEntry =
        entries.getD i defaultEntry) ∧
    (i < entries.length →
      ¬(entries.getD i defaultEntry).isMessageWithId mid →
      (appendToMessageEntries entries mid text).getD i defaultEntry =
        entries.getD i defaultEntry) ∧
    (i < entries.length →
      ((updateToolCallEntries entries callId u).getD i defaultEntry).kind =
        (entries.getD i defaultEntry).kind) ∧
    ((applyToolCallUpdate t u).id = t.id ∧
     (applyToolCallUpdate t u).callId = t.callId) := by
  refine ⟨?_, ?_, ?_, ?_, ?_, rfl, rfl⟩
  · intro h
    exact map_eq_self_of_forall entries _ fun e he =>
      updateToolCallEntry_no_match callId u e (h e he)
  · intro h
    exact map_eq_self_of_forall entries _ fun e he =>
      appendToMessageEntry_no_match mid text e (h e he)
  · intro hi hnm
    rw [updateToolCallEntries, getD_map_lt entries _ defaultEntry i hi]
    exact updateToolCallEntry_no_match callId u _ hnm
  · intro hi hnm
    rw [appendToMessageEntries, getD_map_lt entries _ defaultEntry i hi]
    exact appendToMessageEntry_no_match mid text _ hnm
  · intro hi
    rw [updateToolCallEntries, getD_map_lt entries _ defaultEntry i hi]
    exact updateToolCallEntry_kind callId u _

/-- Witness for C10: updating a callId absent from a one-message transcript
changes nothing. -/
theorem unmatched_updates_witness :
    updateToolCallEntries
      [.message { id := 0, role := .user, text := "hi" }] "missing" {} =
      [.message { id := 0, role := .user, text := "hi" }] :=
  (unmatched_updates_silent_noop
    [.message { id := 0, role := .user, text := "hi" }] "missing" {} 0 "" 0
    { id := 0, callId := "c", name := "n", params := [], status := .pending,
      output := none, errorMessage := none, confirmation := none }).1
    (by decide)

end LlxprtNui
